import Mathlib

/-!
Shallow embedding of the `logmon` access-log monitor (Go) for verification.

The embedding models, faithfully to the Go sources in `pkg/`:
  * `traffic.go` — `TrafficStats`, `TrafficStats.Update`, `parseSection`,
    `parseStatusClass` (Go maps are modelled as association lists);
  * `alert.go`  — `alertSupervisor.trackAlerts` as a pure step function on the
    supervisor state, with the `float64` rate arithmetic modelled exactly in ℚ
    (all rates arising in the claims are small rationals whose `float64`
    comparisons against integer thresholds agree with the exact comparisons);
  * `monitor.go` — `broadcastTrafficStats` as a labelled small-step relation
    capturing the receive / send-to-alerts / send-to-UI suspension points,
    including Go's receive-on-closed-channel behaviour (the receive has no
    `ok` check, so a closed input yields fabricated zero values);
  * `producer.go` — `w3CommonLogParser.Parse`, with the Go regexp engine's
    leftmost-first (backtracking, greedy) semantics implemented for the
    concrete Common Log Format pattern, and `time.Parse` for the layout
    `02/Jan/2006:15:04:05 -0700` modelled rune-for-rune.

Go `int` is modelled as `Int` (values in all claims are far from overflow);
wall-clock fields (`Time`, `CreatedAt`) are not modelled — no claim depends
on them.
-/

namespace Logmon

/-! ## Hit maps

Go's `map[string]int` with the single operation `m[k]++` used by
`TrafficStats.Update`, modelled as an association list without duplicate
keys.  A missing key reads as the zero value 0, so `m[k]++` inserts 1. -/

/-- Association-list model of `map[string]int`. -/
abbrev HitMap := List (String × Int)

/-- Two's-complement wrap-around of Go `int` (64-bit on the targeted
platforms): reduce an exact integer into [-2^63, 2^63).  Every Go integer
addition in `TrafficStats.Update` is modelled through this. -/
def wrap64 (n : Int) : Int := (n + 2 ^ 63) % 2 ^ 64 - 2 ^ 63

/-- Go `m[k]++`: increment the value at `k` with Go's wrapping addition,
inserting 1 when `k` is absent (the zero value incremented; 0 + 1 cannot
wrap). -/
def incrHit : HitMap → String → HitMap
  | [], k => [(k, 1)]
  | (k', v) :: rest, k =>
      if k' = k then (k', wrap64 (v + 1)) :: rest else (k', v) :: incrHit rest k

/-- Sum of all values stored in a hit map. -/
def sumVals (m : HitMap) : Int := m.foldr (fun kv acc => kv.2 + acc) 0

/-! ## Timestamps and log entries -/

/-- Components of a parsed Common Log Format timestamp
(`time.Time` restricted to what `time.Parse` extracts from the layout
`02/Jan/2006:15:04:05 -0700`). -/
structure DateTime where
  year : Int
  month : Int
  day : Int
  hour : Int
  minute : Int
  second : Int
  zoneMinutes : Int
deriving DecidableEq, Repr

/-- Model of `LogEntry` (producer.go).  The wall-clock field `CreatedAt`
(set by `time.Now()`) is not modelled. -/
structure LogEntry where
  RemoteHost : String
  UserID : String
  Username : String
  Date : DateTime
  ReqMethod : String
  ReqPath : String
  ReqProtocol : String
  StatusCode : Int
  Bytes : Int
deriving DecidableEq, Repr

/-! ## TrafficStats (traffic.go) -/

/-- Model of `TrafficStats` (traffic.go). -/
structure TrafficStats where
  SectionHits : HitMap
  MethodHits : HitMap
  StatusClassHits : HitMap
  Bytes : Int
  TotalReqs : Int
deriving DecidableEq, Repr

/-- Model of `NewEmptyTrafficStats` (traffic.go). -/
def NewEmptyTrafficStats : TrafficStats :=
  { SectionHits := [], MethodHits := [], StatusClassHits := [],
    Bytes := 0, TotalReqs := 0 }

/-- Go `if len(path) < 1 || path[0] != '/' { path = "/" + path }`
(first half of `parseSection`), on the rune list of the path. -/
def ensureLeadingSlash : List Char → List Char
  | [] => ['/']
  | c :: cs => if c ≠ '/' then '/' :: c :: cs else c :: cs

/-- `regexp.MustCompile("^/[^/]*").FindString(path)`: the longest prefix of
`path` consisting of `/` followed by non-`/` runes; the empty string when
`path` does not start with `/`. -/
def findSectionInString : List Char → List Char
  | '/' :: rest => '/' :: rest.takeWhile (fun c => c != '/')
  | _ => []

/-- Model of `TrafficStats.parseSection` (traffic.go): ensure a leading `/`,
then take the longest prefix matching `^/[^/]*`. -/
def parseSection (path : String) : String :=
  String.mk (findSectionInString (ensureLeadingSlash path.toList))

/-- Model of `TrafficStats.parseStatusClass` (traffic.go). -/
def parseStatusClass (code : Int) : String :=
  if code < 200 then "1xx"
  else if 200 ≤ code ∧ code ≤ 299 then "2xx"
  else if 300 ≤ code ∧ code ≤ 399 then "3xx"
  else if 400 ≤ code ∧ code ≤ 499 then "4xx"
  else "5xx"

/-- Model of `TrafficStats.Update` (traffic.go).  `s.Bytes += entry.Bytes`
and `s.TotalReqs++` are Go `int` (int64) additions and wrap on overflow
(`wrap64`). -/
def TrafficStats.Update (s : TrafficStats) (entry : LogEntry) : TrafficStats :=
  { s with
    SectionHits := incrHit s.SectionHits (parseSection entry.ReqPath)
    MethodHits := incrHit s.MethodHits entry.ReqMethod
    StatusClassHits := incrHit s.StatusClassHits (parseStatusClass entry.StatusCode)
    Bytes := wrap64 (s.Bytes + entry.Bytes)
    TotalReqs := wrap64 (s.TotalReqs + 1) }

/-- The snapshot obtained by starting from `NewEmptyTrafficStats` and applying
`Update` for every entry of the list, in order (as `trafficSupervisor.produceStats`
does for the entries of one interval). -/
def buildStats (entries : List LogEntry) : TrafficStats :=
  entries.foldl TrafficStats.Update NewEmptyTrafficStats

/-! ## Alert supervisor (alert.go) -/

/-- Model of `ThresholdAlert` (alert.go).  The wall-clock field `Time`
(set by `time.Now()`) is not modelled. -/
structure ThresholdAlert where
  Open : Bool
  Hits : ℚ
deriving DecidableEq, Repr

/-- Model of `AlertSupervisorOpts` (alert.go). -/
structure AlertSupervisorOpts where
  AlertThreshold : Int
  RefreshInterval : Int
  AlertWindow : Int
deriving DecidableEq, Repr

/-- The configuration fields of `alertSupervisor` fixed at construction time
(`capacity`, `threshold`, `window`). -/
structure AlertConfig where
  capacity : Int
  threshold : Int
  window : Int
deriving DecidableEq, Repr

/-- The mutable fields of `alertSupervisor` (`statsBuffer`, `reqsInWindow`,
`ongoing`).  The head of `statsBuffer` is the front of the Go linked list. -/
structure AlertState where
  statsBuffer : List TrafficStats
  reqsInWindow : Int
  ongoing : Bool
deriving DecidableEq, Repr

/-- Configuration built by `NewAlertsSupervisor` (alert.go):
`capacity = AlertWindow / RefreshInterval` with Go integer division
(truncation toward zero, `Int.tdiv`). -/
def NewAlertsSupervisorConfig (opts : AlertSupervisorOpts) : AlertConfig :=
  { capacity := opts.AlertWindow.tdiv opts.RefreshInterval,
    threshold := opts.AlertThreshold,
    window := opts.AlertWindow }

/-- Initial supervisor state set by `NewAlertsSupervisor` (alert.go):
empty buffer, `ongoing: false`, `reqsInWindow` zero-valued. -/
def initialAlertState : AlertState :=
  { statsBuffer := [], reqsInWindow := 0, ongoing := false }

/-- The "Remove old stats" block of `alertSupervisor.trackAlerts` (alert.go):
when the buffer length exceeds the capacity, remove the back element
(`Go list.Back`, the last element of the model list) and subtract its
`TotalReqs` from the running sum. -/
def evictOld (cfg : AlertConfig) (buf : List TrafficStats) (reqs : Int) :
    List TrafficStats × Int :=
  if cfg.capacity < (buf.length : Int) then
    (buf.dropLast, reqs - (buf.getLastD NewEmptyTrafficStats).TotalReqs)
  else
    (buf, reqs)

/-- Model of one call of `alertSupervisor.trackAlerts` (alert.go): push the
snapshot to the front, evict the back when over capacity (`evictOld`),
recompute the rate, and run the hysteretic state machine.  The returned
option is the at-most-one alert sent on the `alerts` channel during the call.
The Go `float64` division `reqsInWindow / window` is modelled exactly in ℚ. -/
def trackAlerts (cfg : AlertConfig) (a : AlertState) (s : TrafficStats) :
    AlertState × Option ThresholdAlert :=
  let er := evictOld cfg (s :: a.statsBuffer) (a.reqsInWindow + s.TotalReqs)
  let buf := er.1
  let reqs := er.2
  let reqsPerSec : ℚ := (reqs : ℚ) / (cfg.window : ℚ)
  if a.ongoing then
    if reqsPerSec < (cfg.threshold : ℚ) then
      ({ statsBuffer := buf, reqsInWindow := reqs, ongoing := false },
       some { Open := false, Hits := reqsPerSec })
    else
      ({ statsBuffer := buf, reqsInWindow := reqs, ongoing := true }, none)
  else
    if (cfg.threshold : ℚ) < reqsPerSec then
      ({ statsBuffer := buf, reqsInWindow := reqs, ongoing := true },
       some { Open := true, Hits := reqsPerSec })
    else
      ({ statsBuffer := buf, reqsInWindow := reqs, ongoing := false }, none)

/-- Model of `alertSupervisor.Run` over a finite stream of snapshots: apply
`trackAlerts` to each snapshot in order, collecting the emitted alerts in
emission order. -/
def runAlerts (cfg : AlertConfig) (a : AlertState) :
    List TrafficStats → AlertState × List ThresholdAlert
  | [] => (a, [])
  | s :: rest =>
      let step := trackAlerts cfg a s
      let tail := runAlerts cfg step.1 rest
      (tail.1, step.2.toList ++ tail.2)

/-- The per-snapshot outputs of `runAlerts`: the option emitted at each step,
in order.  Used to locate at which snapshot an alert fires. -/
def runAlertsTrace (cfg : AlertConfig) (a : AlertState) :
    List TrafficStats → List (Option ThresholdAlert)
  | [] => []
  | s :: rest =>
      let step := trackAlerts cfg a s
      step.2 :: runAlertsTrace cfg step.1 rest

/-! ## Fanout (monitor.go, `broadcastTrafficStats`)

The goroutine body is
`msg := <-stats; statsForAlerts <- msg; statsForUI <- msg` in a loop with a
cancellation branch.  Its three suspension points (receive, send to the
alerts sink, send to the UI sink) become three labelled small steps on an
explicit state; cancellation is simply the absence of further steps. -/

/-- State of the `broadcastTrafficStats` goroutine: `pending` is the input not
yet received, `consumed` the received prefix, `held`/`sentA` the progress of
the current loop iteration, `outA`/`outB` the streams delivered to the alerts
and UI sinks. -/
structure BroadcastState (α : Type) where
  pending : List α
  consumed : List α
  held : Option α
  sentA : Bool
  outA : List α
  outB : List α
deriving DecidableEq, Repr

/-- One suspension-point step of `broadcastTrafficStats`:
`recv` is `msg := <-stats` while the channel still holds items,
`sendA` is `statsForAlerts <- msg`, `sendB` is `statsForUI <- msg`
(which completes the loop iteration).

The receive in monitor.go has no `ok` check — unlike the loops in
producer.go, traffic.go and alert.go.  In Go, once the sender has delivered
every item and closed the channel (the traffic supervisor closes `stats`
when its input ends), `msg := <-stats` immediately yields the zero value of
the element type.  `recvClosed` models that: with the input exhausted the
goroutine keeps receiving the fabricated zero value `z` and forwards it to
both sinks; `consumed` is unchanged because nothing was on the input
stream. -/
inductive BroadcastStep (α : Type) (z : α) :
    BroadcastState α → BroadcastState α → Prop
  | recv (x : α) (rest consumed outA outB : List α) :
      BroadcastStep α z
        ⟨x :: rest, consumed, none, false, outA, outB⟩
        ⟨rest, consumed ++ [x], some x, false, outA, outB⟩
  | recvClosed (consumed outA outB : List α) :
      BroadcastStep α z
        ⟨[], consumed, none, false, outA, outB⟩
        ⟨[], consumed, some z, false, outA, outB⟩
  | sendA (x : α) (pending consumed outA outB : List α) :
      BroadcastStep α z
        ⟨pending, consumed, some x, false, outA, outB⟩
        ⟨pending, consumed, some x, true, outA ++ [x], outB⟩
  | sendB (x : α) (pending consumed outA outB : List α) :
      BroadcastStep α z
        ⟨pending, consumed, some x, true, outA, outB⟩
        ⟨pending, consumed, none, false, outA, outB ++ [x]⟩

/-- Initial state of `broadcastTrafficStats` for a given input stream. -/
def broadcastInit (α : Type) (input : List α) : BroadcastState α :=
  ⟨input, [], none, false, [], []⟩

/-- States reachable by the `broadcastTrafficStats` loop from the initial
state on a given finite input stream, whose source channel is closed after
its last item ("at every moment"). -/
inductive BroadcastReachable (α : Type) (z : α) (input : List α) :
    BroadcastState α → Prop
  | init : BroadcastReachable α z input (broadcastInit α input)
  | step {s t : BroadcastState α} :
      BroadcastReachable α z input s → BroadcastStep α z s t →
      BroadcastReachable α z input t

/-! ## Common Log Format parsing (producer.go)

`w3CommonLogParser.Parse` matches the line against
`^(\S+) (\S+) (\S+) \[([^]]+)] "(\S+) ([^"]+) (\S+)" ([0-9]{3}) ([0-9]+|-)$`.
Go's `regexp` package implements leftmost-first (Perl-preference) submatch
semantics: greedy quantifiers try longer matches first, alternations try the
left branch first.  The pattern is a plain concatenation of literals and
capturing one-or-more character classes, modelled by `RAtom`; `matchAtoms` is
a backtracking matcher with exactly that preference order, anchored at both
ends (the pattern starts with `^` and ends with `$`). -/

/-- Go regexp `\s` is the class `[\t\n\f\r ]`. -/
def isSpaceRE (c : Char) : Bool :=
  c == ' ' || c == '\t' || c == '\n' || c == '\x0c' || c == '\r'

/-- Go regexp `[0-9]`. -/
def isDigitRE (c : Char) : Bool := '0' ≤ c && c ≤ '9'

/-- One atom of the Common Log Format pattern: a literal rune, a capturing
`(X+)` for a character class `X`, the capturing `([0-9]{3})`, or the
capturing alternation `([0-9]+|-)`. -/
inductive RAtom where
  | lit (c : Char)
  | grpPlus (p : Char → Bool)
  | grpThreeDigits
  | grpNumOrDash

mutual

/-- Backtracking matcher for a list of pattern atoms against a rune list,
anchored at both ends, returning the captured groups in order.  Preference
order is Go's leftmost-first: `grpPlus` and the `[0-9]+` branch of
`grpNumOrDash` are greedy (longest first), and `[0-9]+` is preferred over
`-`. -/
def matchAtoms : List RAtom → List Char → Option (List (List Char))
  | [], s => if s = [] then some [] else none
  | .lit c :: ps, s =>
      match s with
      | [] => none
      | x :: xs => if x = c then matchAtoms ps xs else none
  | .grpPlus p :: ps, s => matchPlusFrom ps s ((s.takeWhile p).length)
  | .grpThreeDigits :: ps, s =>
      match s with
      | d1 :: d2 :: d3 :: xs =>
          if isDigitRE d1 && isDigitRE d2 && isDigitRE d3 then
            (matchAtoms ps xs).map (fun caps => [d1, d2, d3] :: caps)
          else none
      | _ => none
  | .grpNumOrDash :: ps, s =>
      (matchPlusFrom ps s ((s.takeWhile isDigitRE).length)).orElse
        (fun _ => matchDashFallback ps s)
termination_by ps _ => ((ps.length, 2, 0) : Nat × Nat × Nat)

/-- Greedy one-or-more matching: try capturing the first `k` runes of `s`
(for `k` from the given bound down to 1) and matching the remaining atoms on
the rest; the bound passed by `matchAtoms` is the length of the maximal run
of class runes, so every tried capture lies inside that run. -/
def matchPlusFrom (ps : List RAtom) (s : List Char) :
    Nat → Option (List (List Char))
  | 0 => none
  | k + 1 =>
      ((matchAtoms ps (s.drop (k + 1))).map
        (fun caps => s.take (k + 1) :: caps)).orElse
        (fun _ => matchPlusFrom ps s k)
termination_by k => ((ps.length + 1, 0, k) : Nat × Nat × Nat)

/-- The `-` branch of the alternation `([0-9]+|-)`: tried only after every
greedy digit-run attempt has failed, as Go's leftmost-first semantics
prescribes. -/
def matchDashFallback (ps : List RAtom) : List Char → Option (List (List Char))
  | '-' :: xs => (matchAtoms ps xs).map (fun caps => ['-'] :: caps)
  | _ => none
termination_by _ => ((ps.length, 3, 0) : Nat × Nat × Nat)

end

/-- The atoms of
`^(\S+) (\S+) (\S+) \[([^]]+)] "(\S+) ([^"]+) (\S+)" ([0-9]{3}) ([0-9]+|-)$`
in order.  (In `[^]]`, the first `]` after `^` is a literal, so the class is
"any rune except `]`".) -/
def clfAtoms : List RAtom :=
  [.grpPlus (fun c => !isSpaceRE c), .lit ' ',
   .grpPlus (fun c => !isSpaceRE c), .lit ' ',
   .grpPlus (fun c => !isSpaceRE c), .lit ' ', .lit '[',
   .grpPlus (fun c => c != ']'), .lit ']', .lit ' ', .lit '"',
   .grpPlus (fun c => !isSpaceRE c), .lit ' ',
   .grpPlus (fun c => c != '"'), .lit ' ',
   .grpPlus (fun c => !isSpaceRE c), .lit '"', .lit ' ',
   .grpThreeDigits, .lit ' ', .grpNumOrDash]

/-- The nine captured groups of a Common Log Format line, in pattern order. -/
structure CLFCaptures where
  remoteHost : List Char
  userID : List Char
  userName : List Char
  date : List Char
  method : List Char
  path : List Char
  protocol : List Char
  status : List Char
  bytes : List Char
deriving DecidableEq, Repr

/-- Model of `rx.FindStringSubmatch(line)` (with the subsequent
`len(matches) < 9` check) for the Common Log Format pattern. -/
def clfMatch (line : String) : Option CLFCaptures :=
  match matchAtoms clfAtoms line.toList with
  | some [g1, g2, g3, g4, g5, g6, g7, g8, g9] =>
      some ⟨g1, g2, g3, g4, g5, g6, g7, g8, g9⟩
  | _ => none

/-- Numeric value of a digit-rune list, most significant first. -/
def digitsVal (ds : List Char) : Int :=
  ds.foldl (fun acc c => acc * 10 + ((c.toNat : Int) - ('0'.toNat : Int))) 0

/-- The optional leading sign accepted by Go `strconv.Atoi` (`ParseInt`):
returns the negativity flag and the remaining digits. -/
def atoiSign : List Char → Bool × List Char
  | '+' :: rest => (false, rest)
  | '-' :: rest => (true, rest)
  | s => (false, s)

/-- Model of Go `strconv.Atoi`: optional sign, one or more decimal digits,
failing on anything else and on 64-bit overflow (Go returns `ErrRange` there;
the caller only checks `err != nil`). -/
def goAtoi (s : List Char) : Option Int :=
  let pr := atoiSign s
  let ds := pr.2
  if ds = [] || !ds.all isDigitRE then none
  else
    let v := digitsVal ds
    let v := if pr.1 then -v else v
    if v < -(2 ^ 63) || 2 ^ 63 - 1 < v then none else some v

/-! ### Go `time.Parse` with layout `02/Jan/2006:15:04:05 -0700` -/

/-- Consume one expected literal rune. -/
def expectChar (c : Char) : List Char → Option (List Char)
  | x :: xs => if x = c then some xs else none
  | [] => none

/-- Go `getnum` with `fixed = true` for a two-digit layout element:
exactly two decimal digits. -/
def getnum2 : List Char → Option (Int × List Char)
  | d1 :: d2 :: rest =>
      if isDigitRE d1 && isDigitRE d2 then
        some (digitsVal [d1, d2], rest)
      else none
  | _ => none

/-- Go `getnum` with `fixed = false` for the `15` hour element:
two decimal digits when the second rune is a digit, otherwise one. -/
def getnum12 : List Char → Option (Int × List Char)
  | d1 :: d2 :: rest =>
      if isDigitRE d1 then
        if isDigitRE d2 then some (digitsVal [d1, d2], rest)
        else some (digitsVal [d1], d2 :: rest)
      else none
  | [d1] => if isDigitRE d1 then some (digitsVal [d1], []) else none
  | [] => none

/-- Exactly four decimal digits (the `2006` year element). -/
def getnum4 : List Char → Option (Int × List Char)
  | d1 :: d2 :: d3 :: d4 :: rest =>
      if isDigitRE d1 && isDigitRE d2 && isDigitRE d3 && isDigitRE d4 then
        some (digitsVal [d1, d2, d3, d4], rest)
      else none
  | _ => none

/-- ASCII lower-casing as in Go's case-insensitive layout-name match. -/
def lowerAscii (c : Char) : Char :=
  if 'A' ≤ c && c ≤ 'Z' then Char.ofNat (c.toNat + 32) else c

/-- Case-insensitive lookup of a three-rune month name (Go `lookup` against
`shortMonthNames`), returning the month number 1..12. -/
def monthNum : List Char → Option Int
  | [c1, c2, c3] =>
      let n := [lowerAscii c1, lowerAscii c2, lowerAscii c3]
      if n = ['j', 'a', 'n'] then some 1
      else if n = ['f', 'e', 'b'] then some 2
      else if n = ['m', 'a', 'r'] then some 3
      else if n = ['a', 'p', 'r'] then some 4
      else if n = ['m', 'a', 'y'] then some 5
      else if n = ['j', 'u', 'n'] then some 6
      else if n = ['j', 'u', 'l'] then some 7
      else if n = ['a', 'u', 'g'] then some 8
      else if n = ['s', 'e', 'p'] then some 9
      else if n = ['o', 'c', 't'] then some 10
      else if n = ['n', 'o', 'v'] then some 11
      else if n = ['d', 'e', 'c'] then some 12
      else none
  | _ => none

/-- Consume the three-rune month name. -/
def getMonth : List Char → Option (Int × List Char)
  | c1 :: c2 :: c3 :: rest =>
      match monthNum [c1, c2, c3] with
      | some m => some (m, rest)
      | none => none
  | _ => none

/-- Go `time.Parse` accepts an unsolicited fractional second after the
seconds element: a `.` or `,` followed by one or more digits is consumed. -/
def skipFraction (s : List Char) : List Char :=
  match s with
  | c :: d :: _ =>
      if (c = '.' || c = ',') && isDigitRE d then
        (s.drop 1).dropWhile isDigitRE
      else s
  | _ => s

/-- The `-0700` numeric zone element: a `+` or `-` sign followed by four
decimal digits, yielding the offset in minutes. -/
def getNumTZ : List Char → Option (Int × List Char)
  | c :: rest =>
      if c = '+' || c = '-' then
        match getnum2 rest with
        | some (hh, rest) =>
            match getnum2 rest with
            | some (mm, rest) =>
                some ((if c = '-' then -1 else 1) * (hh * 60 + mm), rest)
            | none => none
        | none => none
      else none
  | [] => none

/-- Go `isLeap`. -/
def isLeap (year : Int) : Bool :=
  year % 4 = 0 && (year % 100 ≠ 0 || year % 400 = 0)

/-- Go `daysIn(m, year)`. -/
def daysIn (month year : Int) : Int :=
  if month = 2 then (if isLeap year then 29 else 28)
  else if month = 4 || month = 6 || month = 9 || month = 11 then 30
  else 31

/-- Model of Go `time.Parse("02/Jan/2006:15:04:05 -0700", s)`: the layout
elements in order, requiring the whole input to be consumed, with Go's range
checks (hour ≤ 23, minute ≤ 59, second ≤ 59, day within the month). -/
def goParseTimestamp (s : List Char) : Option DateTime := do
  let (day, s) ← getnum2 s
  let s ← expectChar '/' s
  let (mon, s) ← getMonth s
  let s ← expectChar '/' s
  let (year, s) ← getnum4 s
  let s ← expectChar ':' s
  let (hour, s) ← getnum12 s
  let s ← expectChar ':' s
  let (minute, s) ← getnum2 s
  let s ← expectChar ':' s
  let (second, s) ← getnum2 s
  let s := skipFraction s
  let s ← expectChar ' ' s
  let (zone, s) ← getNumTZ s
  if s = [] ∧ hour ≤ 23 ∧ minute ≤ 59 ∧ second ≤ 59 ∧
      1 ≤ day ∧ day ≤ daysIn mon year then
    pure { year := year, month := mon, day := day, hour := hour,
           minute := minute, second := second, zoneMinutes := zone }
  else none

/-- Model of `w3CommonLogParser.Parse` (producer.go): regex match, then date
parse, then `Atoi` for status (error ignored; three digits never fail) and
bytes (`-` or overflow fall back to 0). -/
def Parse (line : String) : Except String LogEntry :=
  match clfMatch line with
  | none => Except.error "log entry does not match regexp"
  | some m =>
      match goParseTimestamp m.date with
      | none => Except.error "parse date from log"
      | some dt =>
          Except.ok
            { RemoteHost := String.mk m.remoteHost,
              UserID := String.mk m.userID,
              Username := String.mk m.userName,
              Date := dt,
              ReqMethod := String.mk m.method,
              ReqPath := String.mk m.path,
              ReqProtocol := String.mk m.protocol,
              StatusCode := (goAtoi m.status).getD 0,
              Bytes := (goAtoi m.bytes).getD 0 }

/-! ## Definitions supporting the claims -/

/-- The invariant of one `TrafficStats` value maintained by `Update` after
`n` entries, for streams short enough that the 64-bit counters cannot wrap:
the request counter is `n`, it equals each map's value sum, and every stored
value lies in [1, n]. -/
def StatsInv (s : TrafficStats) (n : Int) : Prop :=
  s.TotalReqs = n ∧
  s.TotalReqs = sumVals s.MethodHits ∧
  s.TotalReqs = sumVals s.StatusClassHits ∧
  s.TotalReqs = sumVals s.SectionHits ∧
  (∀ kv ∈ s.MethodHits, 1 ≤ kv.2 ∧ kv.2 ≤ n) ∧
  (∀ kv ∈ s.StatusClassHits, 1 ≤ kv.2 ∧ kv.2 ≤ n) ∧
  (∀ kv ∈ s.SectionHits, 1 ≤ kv.2 ∧ kv.2 ≤ n)

/-- Exact (unwrapped) sum of the `Bytes` fields of an entry list. -/
def sumBytes (entries : List LogEntry) : Int :=
  entries.foldr (fun e acc => e.Bytes + acc) 0

/-- An entry carrying `math.MaxInt64` bytes — realizable through the parser,
whose `Atoi` accepts the 19-digit bytes field 9223372036854775807. -/
def hugeBytesEntry : LogEntry :=
  { RemoteHost := "h", UserID := "-", Username := "-",
    Date := { year := 2006, month := 1, day := 2, hour := 15, minute := 4,
              second := 5, zoneMinutes := -420 },
    ReqMethod := "GET", ReqPath := "/x", ReqProtocol := "HTTP/1.0",
    StatusCode := 200, Bytes := 2 ^ 63 - 1 }

/-- A concrete parsed entry (the producer.go doc example) used to instantiate
universally quantified claims. -/
def sampleEntry : LogEntry :=
  { RemoteHost := "145.22.59.60", UserID := "-", Username := "-",
    Date := { year := 2020, month := 4, day := 24, hour := 18, minute := 10,
              second := 14, zoneMinutes := 0 },
    ReqMethod := "PUT", ReqPath := "/web-enabled/enterprise/dynamic",
    ReqProtocol := "HTTP/1.0", StatusCode := 200, Bytes := 22035 }

/-- A snapshot carrying only a request total, as the alert-supervisor tests
feed (`logmon.TrafficStats{TotalReqs: n}`). -/
def snapshot (n : Int) : TrafficStats :=
  { NewEmptyTrafficStats with TotalReqs := n }

/-- The rate computed inside `trackAlerts` after push and eviction
(`reqsPerSec := float64(a.reqsInWindow) / float64(a.window)`). -/
def rateAfter (cfg : AlertConfig) (a : AlertState) (s : TrafficStats) : ℚ :=
  ((evictOld cfg (s :: a.statsBuffer) (a.reqsInWindow + s.TotalReqs)).2 : ℚ) /
    (cfg.window : ℚ)

/-- Sum of `TotalReqs` over a buffer of snapshots. -/
def sumTotalReqs (l : List TrafficStats) : Int :=
  l.foldr (fun s acc => s.TotalReqs + acc) 0

/-- The open/closed state implied by the last alert of a list, starting from
`b` when the list is empty. -/
def lastOpenState (b : Bool) : List ThresholdAlert → Bool
  | [] => b
  | al :: rest => lastOpenState al.Open rest

/-- The supervisor configuration of scenario S3:
threshold 5, refresh 1, window 5 (capacity 5). -/
def s3Config : AlertConfig :=
  NewAlertsSupervisorConfig
    { AlertThreshold := 5, RefreshInterval := 1, AlertWindow := 5 }

/-- The snapshot stream of scenario S3: five snapshots of 5 total requests,
then five of 6, five of 5, and five of 2. -/
def s3Stream : List TrafficStats :=
  List.replicate 5 (snapshot 5) ++ List.replicate 5 (snapshot 6) ++
    List.replicate 5 (snapshot 5) ++ List.replicate 5 (snapshot 2)

/-- Per-atom well-formedness of the captured groups of a successful match:
each `grpPlus` capture is a non-empty run of its class, the `grpThreeDigits`
capture is exactly three decimal digits, and the `grpNumOrDash` capture is a
non-empty digit run or the literal `-`. -/
def CapsOK : List RAtom → List (List Char) → Prop
  | [], caps => caps = []
  | .lit _ :: ps, caps => CapsOK ps caps
  | .grpPlus _ :: _, [] => False
  | .grpPlus p :: ps, g :: caps => g ≠ [] ∧ g.all p = true ∧ CapsOK ps caps
  | .grpThreeDigits :: _, [] => False
  | .grpThreeDigits :: ps, g :: caps =>
      g.length = 3 ∧ g.all isDigitRE = true ∧ CapsOK ps caps
  | .grpNumOrDash :: _, [] => False
  | .grpNumOrDash :: ps, g :: caps =>
      ((g ≠ [] ∧ g.all isDigitRE = true) ∨ g = ['-']) ∧ CapsOK ps caps

/-- A line whose status field is `099`: it matches the pattern (any three
digits) and carries a valid timestamp and a `-` bytes field. -/
def line099 : String :=
  "a b c [02/Jan/2006:15:04:05 -0700] \"GET /x HTTP/1.0\" 099 -"

/-- The captures of `line099`. -/
def caps099 : CLFCaptures :=
  { remoteHost := ['a'], userID := ['b'], userName := ['c'],
    date := ['0', '2', '/', 'J', 'a', 'n', '/', '2', '0', '0', '6', ':',
             '1', '5', ':', '0', '4', ':', '0', '5', ' ', '-', '0', '7',
             '0', '0'],
    method := ['G', 'E', 'T'], path := ['/', 'x'],
    protocol := ['H', 'T', 'T', 'P', '/', '1', '.', '0'],
    status := ['0', '9', '9'], bytes := ['-'] }

/-- The timestamp of `line099`: 2 Jan 2006, 15:04:05, zone -07:00. -/
def dt099 : DateTime :=
  { year := 2006, month := 1, day := 2, hour := 15, minute := 4, second := 5,
    zoneMinutes := -420 }

/-- The entry produced for `line099`: status 99, bytes 0. -/
def entry099 : LogEntry :=
  { RemoteHost := "a", UserID := "b", Username := "c", Date := dt099,
    ReqMethod := "GET", ReqPath := "/x", ReqProtocol := "HTTP/1.0",
    StatusCode := 99, Bytes := 0 }

/-- A line that matches the regex, has bytes `-`, but has an unparseable
date field `zzz`. -/
def lineBadDate : String := "a b c [zzz] \"M /p P\" 200 -"

/-- The captures of `lineBadDate`. -/
def capsBadDate : CLFCaptures :=
  { remoteHost := ['a'], userID := ['b'], userName := ['c'],
    date := ['z', 'z', 'z'], method := ['M'], path := ['/', 'p'],
    protocol := ['P'], status := ['2', '0', '0'], bytes := ['-'] }

/-! ## Helper lemmas -/

/-- Everything kept by `takeWhile` satisfies the predicate. -/
theorem all_takeWhile (p : Char → Bool) (l : List Char) :
    ((l.takeWhile p).all p) = true := by
  induction l with
  | nil => rfl
  | cons c cs ih =>
      by_cases hc : p c = true
      · simp [List.takeWhile_cons, hc, ih]
      · simp [List.takeWhile_cons, hc]

/-- The path passed to the regex in `parseSection` always starts with `/`. -/
theorem ensureLeadingSlash_head (l : List Char) :
    ∃ t, ensureLeadingSlash l = '/' :: t := by
  cases l with
  | nil => exact ⟨[], rfl⟩
  | cons c cs =>
      by_cases hc : c = '/'
      · subst hc; exact ⟨cs, by simp [ensureLeadingSlash]⟩
      · exact ⟨c :: cs, by simp [ensureLeadingSlash, hc]⟩

/-! ## Claim theorems -/

/-- C7: for every integer status code, `parseStatusClass` returns one of
`1xx`..`5xx`; it returns `1xx` exactly when the code is below 200, `2xx`,
`3xx`, `4xx` for the respective hundreds ranges, and `5xx` otherwise,
including codes of 600 and above. -/
theorem parseStatusClass_spec (code : Int) :
    parseStatusClass code ∈ ["1xx", "2xx", "3xx", "4xx", "5xx"] ∧
    (parseStatusClass code = "1xx" ↔ code < 200) ∧
    (parseStatusClass code = "2xx" ↔ 200 ≤ code ∧ code ≤ 299) ∧
    (parseStatusClass code = "3xx" ↔ 300 ≤ code ∧ code ≤ 399) ∧
    (parseStatusClass code = "4xx" ↔ 400 ≤ code ∧ code ≤ 499) ∧
    (parseStatusClass code = "5xx" ↔ 500 ≤ code) := by
  unfold parseStatusClass
  split_ifs with h1 h2 h3 h4 <;>
    refine ⟨by simp, ?_, ?_, ?_, ?_, ?_⟩ <;> simp <;> omega

/-- C8: for every path, `parseSection` returns a string that starts with `/`
and contains no `/` after position 0; in particular `parseSection "/" = "/"`,
`parseSection "/foo/bar" = "/foo"`, `parseSection "abc" = "/abc"` and
`parseSection "" = "/"`. -/
theorem parseSection_spec (p : String) :
    (parseSection p).toList.head? = some '/' ∧
    ((parseSection p).toList.tail.all (fun c => c != '/')) = true ∧
    parseSection "/" = "/" ∧ parseSection "/foo/bar" = "/foo" ∧
    parseSection "abc" = "/abc" ∧ parseSection "" = "/" := by
  obtain ⟨t, ht⟩ := ensureLeadingSlash_head p.data
  refine ⟨?_, ?_, by decide, by decide, by decide, by decide⟩
  · simp [parseSection, String.toList, ht, findSectionInString]
  · simp only [parseSection, String.toList, ht, findSectionInString]
    exact all_takeWhile _ t

/-! ### Hit-map lemmas for C4 -/

/-- `wrap64` is the identity on values already inside the int64 range. -/
theorem wrap64_eq_self {x : Int} (h1 : -(2 ^ 63) ≤ x) (h2 : x ≤ 2 ^ 63 - 1) :
    wrap64 x = x := by
  unfold wrap64
  omega

/-- Incrementing one key raises the value sum by exactly one, as long as the
key's count cannot wrap (all stored values at most `n` with
`n + 1 ≤ 2^63 - 1`). -/
theorem sumVals_incrHit (m : HitMap) (k : String) (n : Int)
    (hn : n + 1 ≤ 2 ^ 63 - 1)
    (hv : ∀ kv ∈ m, 1 ≤ kv.2 ∧ kv.2 ≤ n) :
    sumVals (incrHit m k) = sumVals m + 1 := by
  induction m with
  | nil => simp [incrHit, sumVals]
  | cons kv rest ih =>
      obtain ⟨k', v⟩ := kv
      by_cases hk : k' = k
      · have hb := hv (k', v) (by simp)
        simp only at hb
        have hw : wrap64 (v + 1) = v + 1 :=
          wrap64_eq_self (by omega) (by omega)
        simp [incrHit, hk, sumVals, hw]
        ring
      · simp only [incrHit, hk, if_false, sumVals, List.foldr_cons] at ih ⊢
        have hrec := ih (fun kv hkv => hv kv (List.mem_cons_of_mem _ hkv))
        omega

/-- Incrementing keeps every stored value inside [1, n + 1] when counts
cannot yet wrap. -/
theorem bounds_incrHit (m : HitMap) (k : String) (n : Int)
    (hn : n + 1 ≤ 2 ^ 63 - 1) (hn0 : 0 ≤ n)
    (h : ∀ kv ∈ m, 1 ≤ kv.2 ∧ kv.2 ≤ n) :
    ∀ kv ∈ incrHit m k, 1 ≤ kv.2 ∧ kv.2 ≤ n + 1 := by
  induction m with
  | nil =>
      intro kv hkv
      simp only [incrHit, List.mem_singleton] at hkv
      subst hkv
      exact ⟨by norm_num, by simp; omega⟩
  | cons kv₀ rest ih =>
      obtain ⟨k', v⟩ := kv₀
      intro kv hkv
      by_cases hk : k' = k
      · simp only [incrHit, if_pos hk, List.mem_cons] at hkv
        rcases hkv with h₁ | h₂
        · subst h₁
          have hb := h (k', v) (by simp)
          simp only at hb ⊢
          have hw : wrap64 (v + 1) = v + 1 :=
            wrap64_eq_self (by omega) (by omega)
          rw [hw]
          omega
        · have hb := h kv (List.mem_cons_of_mem _ h₂)
          exact ⟨hb.1, by omega⟩
      · simp only [incrHit, if_neg hk, List.mem_cons] at hkv
        rcases hkv with h₁ | h₂
        · subst h₁
          have hb := h (k', v) (by simp)
          exact ⟨hb.1, by omega⟩
        · exact ih (fun kv hkv => h kv (List.mem_cons_of_mem _ hkv)) kv h₂

/-- One `Update` call preserves `StatsInv`, advancing the entry count. -/
theorem statsInv_update (s : TrafficStats) (e : LogEntry) (n : Int)
    (hn : n + 1 ≤ 2 ^ 63 - 1) (hn0 : 0 ≤ n) (h : StatsInv s n) :
    StatsInv (s.Update e) (n + 1) := by
  obtain ⟨h0, h1, h2, h3, h4, h5, h6⟩ := h
  have e1 := sumVals_incrHit s.MethodHits e.ReqMethod n hn h4
  have e2 := sumVals_incrHit s.StatusClassHits (parseStatusClass e.StatusCode) n hn h5
  have e3 := sumVals_incrHit s.SectionHits (parseSection e.ReqPath) n hn h6
  have hw : wrap64 (s.TotalReqs + 1) = s.TotalReqs + 1 :=
    wrap64_eq_self (by omega) (by omega)
  refine ⟨?_, ?_, ?_, ?_, ?_, ?_, ?_⟩ <;>
    simp only [TrafficStats.Update, hw, e1, e2, e3]
  · omega
  · omega
  · omega
  · omega
  · exact bounds_incrHit _ _ n hn hn0 h4
  · exact bounds_incrHit _ _ n hn hn0 h5
  · exact bounds_incrHit _ _ n hn hn0 h6

/-- Folding `Update` preserves `StatsInv` while the total count stays below
the wrap bound. -/
theorem statsInv_foldl (entries : List LogEntry) (s : TrafficStats) (n : Int)
    (hn0 : 0 ≤ n) (hbound : n + (entries.length : Int) ≤ 2 ^ 63 - 1)
    (h : StatsInv s n) :
    StatsInv (entries.foldl TrafficStats.Update s) (n + (entries.length : Int)) := by
  induction entries generalizing s n with
  | nil => simpa using h
  | cons e rest ih =>
      simp only [List.foldl_cons]
      have hlen : ((e :: rest).length : Int) = (rest.length : Int) + 1 := by
        push_cast [List.length_cons]
        ring
      rw [hlen] at hbound ⊢
      have hb' : n + 1 ≤ 2 ^ 63 - 1 := by omega
      have hstep := statsInv_update s e n hb' hn0 h
      have harith : n + ((rest.length : Int) + 1) =
          (n + 1) + (rest.length : Int) := by ring
      rw [harith]
      exact ih (s.Update e) (n + 1) (by omega) (by omega) hstep

/-- Every entry list with non-negative per-entry bytes has a non-negative
exact byte sum. -/
theorem sumBytes_nonneg (entries : List LogEntry)
    (h : ∀ e ∈ entries, 0 ≤ e.Bytes) : 0 ≤ sumBytes entries := by
  induction entries with
  | nil => simp [sumBytes]
  | cons e rest ih =>
      have he := h e (by simp)
      have hr := ih (fun e' he' => h e' (List.mem_cons_of_mem _ he'))
      simp only [sumBytes, List.foldr_cons] at hr ⊢
      omega

/-- Folding `Update` computes the exact byte sum — no wrap occurs — when
every entry's bytes are non-negative and the exact total fits in int64. -/
theorem bytes_foldl (entries : List LogEntry) (s : TrafficStats)
    (hs0 : 0 ≤ s.Bytes) (hpos : ∀ e ∈ entries, 0 ≤ e.Bytes)
    (hbound : s.Bytes + sumBytes entries ≤ 2 ^ 63 - 1) :
    (entries.foldl TrafficStats.Update s).Bytes = s.Bytes + sumBytes entries := by
  induction entries generalizing s with
  | nil => simp [sumBytes]
  | cons e rest ih =>
      simp only [List.foldl_cons]
      have hse : 0 ≤ e.Bytes := hpos e (by simp)
      have hposr : ∀ e' ∈ rest, 0 ≤ e'.Bytes :=
        fun e' he' => hpos e' (List.mem_cons_of_mem _ he')
      have hrest : 0 ≤ sumBytes rest := sumBytes_nonneg rest hposr
      have hcons : sumBytes (e :: rest) = e.Bytes + sumBytes rest := rfl
      have hw : wrap64 (s.Bytes + e.Bytes) = s.Bytes + e.Bytes :=
        wrap64_eq_self (by omega) (by omega)
      have hub : (s.Update e).Bytes = s.Bytes + e.Bytes := by
        simp only [TrafficStats.Update, hw]
      have hcall := ih (s.Update e) (by omega) hposr (by omega)
      rw [hcall, hub]
      omega

/-- C4 counterexample: Go `int` wraps mod 2^64.  Both entries carry
`9223372036854775807` bytes — a value the parser's `Atoi` accepts — yet
after folding `Update` over the two of them the byte counter is -2,
refuting the claimed non-negativity of `total_bytes` for entries with
non-negative bytes. -/
theorem buildStats_bytes_overflow :
    (∀ e ∈ [hugeBytesEntry, hugeBytesEntry], 0 ≤ e.Bytes) ∧
    (buildStats [hugeBytesEntry, hugeBytesEntry]).Bytes = -2 ∧
    ¬ 0 ≤ (buildStats [hugeBytesEntry, hugeBytesEntry]).Bytes := by
  refine ⟨by decide, by decide, by decide⟩

/-- C4 (amended): with Go's wrapping 64-bit arithmetic modelled, for every
sequence of at most 2^63 - 1 entries, `total_requests` equals the value sum
of each of the three hit maps and none of the maps stores a zero value; and
`total_bytes` is non-negative provided additionally every entry's bytes are
non-negative and the exact total byte count is at most 2^63 - 1 (the bound
the counterexample shows necessary). -/
theorem buildStats_invariants (entries : List LogEntry)
    (hcount : (entries.length : Int) ≤ 2 ^ 63 - 1) :
    (buildStats entries).TotalReqs = sumVals (buildStats entries).MethodHits ∧
    (buildStats entries).TotalReqs = sumVals (buildStats entries).StatusClassHits ∧
    (buildStats entries).TotalReqs = sumVals (buildStats entries).SectionHits ∧
    ((∀ e ∈ entries, 0 ≤ e.Bytes) → sumBytes entries ≤ 2 ^ 63 - 1 →
      0 ≤ (buildStats entries).Bytes) ∧
    (∀ kv ∈ (buildStats entries).MethodHits, kv.2 ≠ 0) ∧
    (∀ kv ∈ (buildStats entries).StatusClassHits, kv.2 ≠ 0) ∧
    (∀ kv ∈ (buildStats entries).SectionHits, kv.2 ≠ 0) := by
  have hinv₀ : StatsInv NewEmptyTrafficStats 0 := by
    refine ⟨rfl, rfl, rfl, rfl, ?_, ?_, ?_⟩ <;> simp [NewEmptyTrafficStats]
  have hmain := statsInv_foldl entries NewEmptyTrafficStats 0 (le_refl 0)
    (by omega) hinv₀
  obtain ⟨h0, h1, h2, h3, h4, h5, h6⟩ := hmain
  refine ⟨h1, h2, h3, ?_,
    fun kv hkv => by have := h4 kv hkv; omega,
    fun kv hkv => by have := h5 kv hkv; omega,
    fun kv hkv => by have := h6 kv hkv; omega⟩
  intro hpos hbound
  have hz : NewEmptyTrafficStats.Bytes = 0 := rfl
  have hsum := bytes_foldl entries NewEmptyTrafficStats (by rw [hz]) hpos
    (by rw [hz]; omega)
  have hnn := sumBytes_nonneg entries hpos
  show 0 ≤ (entries.foldl TrafficStats.Update NewEmptyTrafficStats).Bytes
  omega

/-- Witness for C4 (amended) at the one-entry list holding `sampleEntry`,
discharging the count and byte-sum bounds concretely. -/
theorem buildStats_invariants_witness :
    (([sampleEntry].length : Int) ≤ 2 ^ 63 - 1) ∧
    (∀ e ∈ [sampleEntry], 0 ≤ e.Bytes) ∧
    sumBytes [sampleEntry] ≤ 2 ^ 63 - 1 ∧
    0 ≤ (buildStats [sampleEntry]).Bytes ∧
    (buildStats [sampleEntry]).TotalReqs =
      sumVals (buildStats [sampleEntry]).MethodHits :=
  ⟨by decide, by decide, by decide,
    (buildStats_invariants [sampleEntry] (by decide)).2.2.2.1
      (by decide) (by decide),
    (buildStats_invariants [sampleEntry] (by decide)).1⟩

/-! ### Alert-supervisor lemmas and claims -/

/-- C2: the state machine of `trackAlerts` uses strict comparisons with
hysteresis.  With `rateAfter` the rate the code computes for the incoming
snapshot: from the closed state, `rate > threshold` opens and emits exactly
one `Open := true` alert; from the open state, `rate < threshold` closes and
emits exactly one `Open := false` alert; in all other cases — including rate
exactly equal to the threshold, in either state — the open/closed state is
unchanged and nothing is emitted.  The initial state is closed and at most
one alert is emitted per input snapshot. -/
theorem trackAlerts_hysteresis (cfg : AlertConfig) (a : AlertState)
    (s : TrafficStats) (_hw : 0 < cfg.window) :
    ((trackAlerts cfg a s).1.reqsInWindow : ℚ) / (cfg.window : ℚ) =
        rateAfter cfg a s ∧
    (a.ongoing = false → (cfg.threshold : ℚ) < rateAfter cfg a s →
      (trackAlerts cfg a s).1.ongoing = true ∧
      (trackAlerts cfg a s).2 = some { Open := true, Hits := rateAfter cfg a s }) ∧
    (a.ongoing = true → rateAfter cfg a s < (cfg.threshold : ℚ) →
      (trackAlerts cfg a s).1.ongoing = false ∧
      (trackAlerts cfg a s).2 = some { Open := false, Hits := rateAfter cfg a s }) ∧
    (a.ongoing = false → ¬ (cfg.threshold : ℚ) < rateAfter cfg a s →
      (trackAlerts cfg a s).1.ongoing = a.ongoing ∧
      (trackAlerts cfg a s).2 = none) ∧
    (a.ongoing = true → ¬ rateAfter cfg a s < (cfg.threshold : ℚ) →
      (trackAlerts cfg a s).1.ongoing = a.ongoing ∧
      (trackAlerts cfg a s).2 = none) ∧
    initialAlertState.ongoing = false ∧
    (trackAlerts cfg a s).2.toList.length ≤ 1 := by
  simp only [trackAlerts, rateAfter]
  cases hA : a.ongoing <;>
    split_ifs with hcmp <;>
      simp_all [initialAlertState]

/-- Witness for C2 at a concrete configuration: threshold 1, window 1,
capacity 1, one snapshot with two requests opens the alert at rate 2. -/
theorem trackAlerts_hysteresis_witness :
    (trackAlerts ⟨1, 1, 1⟩ initialAlertState (snapshot 2)).1.ongoing = true ∧
    (trackAlerts ⟨1, 1, 1⟩ initialAlertState (snapshot 2)).2 =
      some { Open := true,
             Hits := rateAfter ⟨1, 1, 1⟩ initialAlertState (snapshot 2) } :=
  (trackAlerts_hysteresis ⟨1, 1, 1⟩ initialAlertState (snapshot 2)
    (by norm_num)).2.1 rfl
    (by norm_num [rateAfter, evictOld, snapshot, initialAlertState,
      NewEmptyTrafficStats])

/-- C1 counterexample: scenario S3 does not produce the claimed alert pair —
the second alert does not carry rate 25/5 = 5.0.  When the last `6` leaves
the window the rate is exactly 5.0, which is not strictly below the
threshold 5, so the open alert is not closed at that snapshot. -/
theorem s3_claimed_alerts_counterexample :
    (runAlerts s3Config initialAlertState s3Stream).2 ≠
      [{ Open := true, Hits := 26 / 5 }, { Open := false, Hits := 25 / 5 }] := by
  norm_num [s3Stream, s3Config, NewAlertsSupervisorConfig, runAlerts, trackAlerts,
    evictOld, snapshot, initialAlertState, NewEmptyTrafficStats, Int.tdiv,
    List.replicate, List.dropLast, List.getLastD]

/-- C1 (amended): scenario S3 — threshold 5, refresh 1, window 5, snapshots
five `5`s, five `6`s, five `5`s, five `2`s — produces exactly two alerts:
the first (`Open := true`, rate 26/5 = 5.2) at the sixth snapshot, when the
window fills with the first `6`; the second (`Open := false`, rate
22/5 = 4.4) at the sixteenth snapshot, when the first `2` enters the window
and the rate first drops strictly below the threshold.  At the fifteenth
snapshot, where the last `6` leaves the window, the rate is exactly
25/5 = 5.0 and the strict `<` comparison emits nothing.  No further alerts
are emitted. -/
theorem s3_open_then_recover :
    (runAlerts s3Config initialAlertState s3Stream).2 =
      [{ Open := true, Hits := 26 / 5 }, { Open := false, Hits := 22 / 5 }] ∧
    runAlertsTrace s3Config initialAlertState s3Stream =
      [none, none, none, none, none,
       some { Open := true, Hits := 26 / 5 },
       none, none, none, none, none, none, none, none, none,
       some { Open := false, Hits := 22 / 5 },
       none, none, none, none] := by
  constructor <;>
    norm_num [s3Stream, s3Config, NewAlertsSupervisorConfig, runAlerts,
      runAlertsTrace, trackAlerts, evictOld, snapshot, initialAlertState,
      NewEmptyTrafficStats, Int.tdiv, List.replicate, List.dropLast,
      List.getLastD]

/-- The default value of `getLastD` is irrelevant on non-empty lists. -/
theorem getLastD_cons_default (y : TrafficStats) (t : List TrafficStats)
    (d d' : TrafficStats) : (y :: t).getLastD d = (y :: t).getLastD d' := rfl

/-- Removing the last element removes exactly its `TotalReqs` from the sum. -/
theorem sumTotalReqs_dropLast (x : TrafficStats) (l : List TrafficStats) :
    sumTotalReqs ((x :: l).dropLast) =
      sumTotalReqs (x :: l) - ((x :: l).getLastD NewEmptyTrafficStats).TotalReqs := by
  induction l generalizing x with
  | nil => simp [sumTotalReqs]
  | cons y t ih =>
      have h1 : (x :: y :: t).dropLast = x :: (y :: t).dropLast := rfl
      have h2 : (x :: y :: t).getLastD NewEmptyTrafficStats =
          (y :: t).getLastD NewEmptyTrafficStats := by
        exact getLastD_cons_default y t x NewEmptyTrafficStats
      rw [h1, h2]
      have := ih y
      simp only [sumTotalReqs, List.foldr_cons] at this ⊢
      omega

/-- One `trackAlerts` call preserves the state invariant: buffer length within
capacity, running sum equal to the buffer sum, and the open flag tracking the
emitted alert (unchanged when nothing is emitted). -/
theorem trackAlerts_invariant_step (cfg : AlertConfig) (a : AlertState)
    (s : TrafficStats)
    (hlen : (a.statsBuffer.length : Int) ≤ cfg.capacity)
    (hsum : a.reqsInWindow = sumTotalReqs a.statsBuffer) :
    (((trackAlerts cfg a s).1.statsBuffer.length : Int) ≤ cfg.capacity) ∧
    (trackAlerts cfg a s).1.reqsInWindow =
      sumTotalReqs (trackAlerts cfg a s).1.statsBuffer ∧
    (trackAlerts cfg a s).1.ongoing =
      (((trackAlerts cfg a s).2.map ThresholdAlert.Open).getD a.ongoing) := by
  have hcons : sumTotalReqs (s :: a.statsBuffer) =
      s.TotalReqs + sumTotalReqs a.statsBuffer := rfl
  have hbuf :
      ((evictOld cfg (s :: a.statsBuffer) (a.reqsInWindow + s.TotalReqs)).1.length : Int) ≤
        cfg.capacity ∧
      (evictOld cfg (s :: a.statsBuffer) (a.reqsInWindow + s.TotalReqs)).2 =
        sumTotalReqs (evictOld cfg (s :: a.statsBuffer) (a.reqsInWindow + s.TotalReqs)).1 := by
    unfold evictOld
    split_ifs with hc
    · dsimp only
      constructor
      · rw [List.length_dropLast]
        simp only [List.length_cons] at hlen ⊢
        push_cast
        omega
      · have hdrop := sumTotalReqs_dropLast s a.statsBuffer
        omega
    · dsimp only
      exact ⟨le_of_not_lt hc, by omega⟩
  simp only [trackAlerts]
  split_ifs with hA hcmp hcmp <;>
    refine ⟨hbuf.1, hbuf.2, ?_⟩ <;> simp_all

/-- The invariant of C9 holds after every run from any state satisfying it,
and the final open flag is the last emitted transition starting from the
initial flag. -/
theorem runAlerts_invariant_aux (cfg : AlertConfig) (l : List TrafficStats)
    (a : AlertState)
    (hlen : (a.statsBuffer.length : Int) ≤ cfg.capacity)
    (hsum : a.reqsInWindow = sumTotalReqs a.statsBuffer) :
    (((runAlerts cfg a l).1.statsBuffer.length : Int) ≤ cfg.capacity) ∧
    (runAlerts cfg a l).1.reqsInWindow =
      sumTotalReqs (runAlerts cfg a l).1.statsBuffer ∧
    (runAlerts cfg a l).1.ongoing = lastOpenState a.ongoing (runAlerts cfg a l).2 := by
  induction l generalizing a with
  | nil => exact ⟨hlen, hsum, rfl⟩
  | cons s rest ih =>
      obtain ⟨h1, h2, h3⟩ := trackAlerts_invariant_step cfg a s hlen hsum
      obtain ⟨g1, g2, g3⟩ := ih (trackAlerts cfg a s).1 h1 h2
      have hrw : runAlerts cfg a (s :: rest) =
          ((runAlerts cfg (trackAlerts cfg a s).1 rest).1,
           (trackAlerts cfg a s).2.toList ++
             (runAlerts cfg (trackAlerts cfg a s).1 rest).2) := rfl
      rw [hrw]
      refine ⟨g1, g2, ?_⟩
      have hconnect : lastOpenState a.ongoing
          ((trackAlerts cfg a s).2.toList ++
            (runAlerts cfg (trackAlerts cfg a s).1 rest).2) =
          lastOpenState (trackAlerts cfg a s).1.ongoing
            (runAlerts cfg (trackAlerts cfg a s).1 rest).2 := by
        cases hstep : (trackAlerts cfg a s).2 with
        | none =>
            rw [hstep] at h3
            simp only [Option.map_none', Option.getD_none] at h3
            simp [h3, Option.toList]
        | some al =>
            rw [hstep] at h3
            simp only [Option.map_some', Option.getD_some] at h3
            simp only [Option.toList, List.cons_append, List.nil_append]
            rw [h3]
            rfl
      rw [hconnect]
      exact g3

/-- C9: under the precondition that the capacity
`N = window_s / refresh_interval_s` is at least 1, after processing any
snapshot stream from the initial state the detector state satisfies: the
buffer holds at most N snapshots, `reqsInWindow` equals the sum of
`TotalReqs` over the stored snapshots, and the open flag is `true` exactly
when the most recently emitted alert (if any) had `Open := true`
(`lastOpenState false`). -/
theorem runAlerts_state_invariants (cfg : AlertConfig) (l : List TrafficStats)
    (hcap : 1 ≤ cfg.capacity) :
    (((runAlerts cfg initialAlertState l).1.statsBuffer.length : Int) ≤ cfg.capacity) ∧
    (runAlerts cfg initialAlertState l).1.reqsInWindow =
      sumTotalReqs (runAlerts cfg initialAlertState l).1.statsBuffer ∧
    (runAlerts cfg initialAlertState l).1.ongoing =
      lastOpenState false (runAlerts cfg initialAlertState l).2 :=
  runAlerts_invariant_aux cfg l initialAlertState
    (by simp [initialAlertState]; omega) rfl

/-- Witness for C9: capacity 1, threshold 1, window 1, a single snapshot with
two requests (which opens the alert). -/
theorem runAlerts_state_invariants_witness :
    (((runAlerts ⟨1, 1, 1⟩ initialAlertState [snapshot 2]).1.statsBuffer.length : Int) ≤
      (1 : Int)) ∧
    (runAlerts ⟨1, 1, 1⟩ initialAlertState [snapshot 2]).1.reqsInWindow =
      sumTotalReqs (runAlerts ⟨1, 1, 1⟩ initialAlertState [snapshot 2]).1.statsBuffer ∧
    (runAlerts ⟨1, 1, 1⟩ initialAlertState [snapshot 2]).1.ongoing =
      lastOpenState false (runAlerts ⟨1, 1, 1⟩ initialAlertState [snapshot 2]).2 :=
  runAlerts_state_invariants ⟨1, 1, 1⟩ [snapshot 2] (by norm_num)

/-- Go integer division truncates toward zero (`Int.tdiv`); a non-negative
numerator smaller than the denominator yields 0. -/
theorem tdiv_zero_of_lt {a b : Int} (h0 : 0 ≤ a) (h : a < b) : a.tdiv b = 0 := by
  obtain ⟨m, rfl⟩ := Int.eq_ofNat_of_zero_le h0
  obtain ⟨n, rfl⟩ := Int.eq_ofNat_of_zero_le (le_trans h0 (le_of_lt h))
  have hmn : m < n := by exact_mod_cast h
  show Int.tdiv _ _ = 0
  simp [Int.tdiv, Nat.div_eq_of_lt hmn]

/-- With capacity 0 and a strictly positive threshold, one `trackAlerts` call
from the initial state pushes the snapshot, immediately evicts it again, and
returns to the initial state without emitting. -/
theorem trackAlerts_capacity_zero_step (cfg : AlertConfig) (s : TrafficStats)
    (hcap : cfg.capacity = 0) (hthr : 0 < cfg.threshold) :
    trackAlerts cfg initialAlertState s = (initialAlertState, none) := by
  have hnotlt : ¬ ((cfg.threshold : ℚ) < (0 : ℚ)) := by
    have h : (0 : ℚ) < (cfg.threshold : ℚ) := by exact_mod_cast hthr
    linarith
  simp [trackAlerts, evictOld, initialAlertState, hcap, hnotlt]

/-- With capacity 0 and a strictly positive threshold, every run stays at the
initial state and emits nothing. -/
theorem runAlerts_capacity_zero_aux (cfg : AlertConfig)
    (hcap : cfg.capacity = 0) (hthr : 0 < cfg.threshold) (l : List TrafficStats) :
    runAlerts cfg initialAlertState l = (initialAlertState, []) := by
  induction l with
  | nil => rfl
  | cons s rest ih =>
      simp [runAlerts, trackAlerts_capacity_zero_step cfg s hcap hthr, ih]

/-- C10: if the supervisor is built with `0 ≤ AlertWindow < RefreshInterval`,
the Go integer division `AlertWindow / RefreshInterval` makes the capacity 0;
then for every snapshot stream and every strictly positive threshold, after
any number of steps the state is still the initial one — each pushed snapshot
was immediately evicted, `reqsInWindow` is 0 — and no alert was emitted. -/
theorem runAlerts_capacity_zero (opts : AlertSupervisorOpts)
    (l : List TrafficStats) (n : Nat)
    (h0 : 0 ≤ opts.AlertWindow) (hlt : opts.AlertWindow < opts.RefreshInterval)
    (hthr : 0 < opts.AlertThreshold) :
    (NewAlertsSupervisorConfig opts).capacity = 0 ∧
    runAlerts (NewAlertsSupervisorConfig opts) initialAlertState (l.take n) =
      (initialAlertState, []) := by
  have hcap : (NewAlertsSupervisorConfig opts).capacity = 0 := tdiv_zero_of_lt h0 hlt
  exact ⟨hcap, runAlerts_capacity_zero_aux _ hcap hthr (l.take n)⟩

/-- Witness for C10: threshold 5, refresh 10, window 5 and a two-snapshot
stream. -/
theorem runAlerts_capacity_zero_witness :
    (NewAlertsSupervisorConfig ⟨5, 10, 5⟩).capacity = 0 ∧
    runAlerts (NewAlertsSupervisorConfig ⟨5, 10, 5⟩) initialAlertState
        ([snapshot 3, snapshot 7].take 2) = (initialAlertState, []) :=
  runAlerts_capacity_zero ⟨5, 10, 5⟩ [snapshot 3, snapshot 7] 2
    (by norm_num) (by norm_num) (by norm_num)

/-! ### Fanout (C3)

The claim states that both output streams of `broadcastTrafficStats` are
prefix-equal to the input stream at every moment.  While items remain on the
input this holds, but the receive in monitor.go has no `ok` check;
producer.go, traffic.go and alert.go all guard their receives with
`if !ok break`.  Once the traffic supervisor closes the `stats` channel
(after its own input ends), the fanout goroutine's `msg := <-stats` yields
zero-valued `TrafficStats` immediately and repeatedly, and the loop forwards
these fabricated snapshots to both sinks — items that were never on the
input stream.  The trace below exhibits the violation concretely. -/

/-- C3 demonstration (the code contradicts the claim): feeding the single
snapshot `{TotalReqs: 5}` and then closing the source channel, the loop
reaches a state whose alerts-sink stream is
`[snapshot 5, NewEmptyTrafficStats]` — the zero-valued snapshot fabricated
by the unchecked receive on the closed channel — which is not a prefix of
the input `[snapshot 5]`.  The UI sink receives the same fabricated item. -/
theorem broadcastTrafficStats_closed_flood :
    BroadcastReachable TrafficStats NewEmptyTrafficStats [snapshot 5]
      ⟨[], [snapshot 5], none, false,
        [snapshot 5, NewEmptyTrafficStats],
        [snapshot 5, NewEmptyTrafficStats]⟩ ∧
    ¬ (∃ t, [snapshot 5] = [snapshot 5, NewEmptyTrafficStats] ++ t) ∧
    ¬ (∃ t, [snapshot 5] = [snapshot 5, NewEmptyTrafficStats] ++ t) := by
  refine ⟨?_, ?_, ?_⟩
  · exact
      .step
        (.step
          (.step
            (.step
              (.step
                (.step BroadcastReachable.init
                  (BroadcastStep.recv (snapshot 5) [] [] [] []))
                (BroadcastStep.sendA (snapshot 5) [] [snapshot 5] [] []))
              (BroadcastStep.sendB (snapshot 5) [] [snapshot 5] [snapshot 5] []))
            (BroadcastStep.recvClosed [snapshot 5] [snapshot 5] [snapshot 5]))
          (BroadcastStep.sendA NewEmptyTrafficStats [] [snapshot 5]
            [snapshot 5] [snapshot 5]))
        (BroadcastStep.sendB NewEmptyTrafficStats [] [snapshot 5]
          [snapshot 5, NewEmptyTrafficStats] [snapshot 5])
  · rintro ⟨t, ht⟩
    have hlen := congrArg List.length ht
    simp at hlen
  · rintro ⟨t, ht⟩
    have hlen := congrArg List.length ht
    simp at hlen

/-! ### Parser well-formedness (C5, C6) -/

/-- A prefix no longer than the maximal `p`-run consists of `p`-runes only. -/
theorem take_all_of_le_takeWhile (p : Char → Bool) (s : List Char) (k : Nat)
    (hk : k ≤ (s.takeWhile p).length) : (s.take k).all p = true := by
  induction s generalizing k with
  | nil =>
      simp only [List.takeWhile_nil, List.length_nil, Nat.le_zero] at hk
      simp [hk]
  | cons c cs ih =>
      cases k with
      | zero => simp
      | succ k =>
          by_cases hc : p c = true
          · simp only [List.takeWhile_cons, if_pos hc, List.length_cons] at hk
            simp only [List.take_succ_cons, List.all_cons, hc, Bool.true_and]
            exact ih k (by omega)
          · simp [List.takeWhile_cons, hc] at hk

/-- A positive-length prefix of a list at least that long is non-empty. -/
theorem take_ne_nil_of_pos (s : List Char) (k : Nat) (hk : 1 ≤ k)
    (hlen : k ≤ s.length) : s.take k ≠ [] := by
  cases s with
  | nil => simp at hlen; omega
  | cons c cs =>
      cases k with
      | zero => omega
      | succ k => simp [List.take_succ_cons]

/-- Every successful `matchPlusFrom` result captures a non-empty prefix of
length at most the bound and matches the remaining atoms on the rest. -/
theorem matchPlusFrom_spec (ps : List RAtom) (s : List Char) (k : Nat)
    (caps : List (List Char)) (h : matchPlusFrom ps s k = some caps) :
    ∃ j caps', 1 ≤ j ∧ j ≤ k ∧ caps = s.take j :: caps' ∧
      matchAtoms ps (s.drop j) = some caps' := by
  induction k with
  | zero => simp [matchPlusFrom] at h
  | succ k ih =>
      rw [matchPlusFrom] at h
      cases hm : matchAtoms ps (s.drop (k + 1)) with
      | some caps' =>
          rw [hm] at h
          simp only [Option.map_some', Option.orElse, Option.some.injEq] at h
          exact ⟨k + 1, caps', by omega, le_refl _, h.symm, hm⟩
      | none =>
          rw [hm] at h
          simp only [Option.map_none', Option.orElse] at h
          obtain ⟨j, caps', h1, h2, h3, h4⟩ := ih h
          exact ⟨j, caps', h1, by omega, h3, h4⟩

/-- `takeWhile` never keeps more elements than the list has. -/
theorem takeWhile_length_le (p : Char → Bool) (s : List Char) :
    (s.takeWhile p).length ≤ s.length := by
  induction s with
  | nil => simp
  | cons c cs ih =>
      by_cases hc : p c = true
      · simp only [List.takeWhile_cons, if_pos hc, List.length_cons]
        omega
      · simp [List.takeWhile_cons, hc]

/-- Every successful match produces well-formed captures (`CapsOK`). -/
theorem matchAtoms_capsOK (ps : List RAtom) :
    ∀ (s : List Char) (caps : List (List Char)),
      matchAtoms ps s = some caps → CapsOK ps caps := by
  induction ps with
  | nil =>
      intro s caps h
      rw [matchAtoms.eq_def] at h
      dsimp only at h
      split_ifs at h
      simp only [Option.some.injEq] at h
      exact h.symm
  | cons atom ps ih =>
      intro s caps h
      cases atom with
      | lit c =>
          rw [matchAtoms.eq_def] at h
          cases s with
          | nil => simp at h
          | cons x xs =>
              dsimp only at h
              split_ifs at h
              exact ih xs caps h
      | grpPlus p =>
          rw [matchAtoms.eq_def] at h
          dsimp only at h
          obtain ⟨j, caps', hj1, hj2, rfl, hrest⟩ := matchPlusFrom_spec ps s _ caps h
          have hall : (s.take j).all p = true := take_all_of_le_takeWhile p s j hj2
          have hlen : j ≤ s.length := le_trans hj2 (takeWhile_length_le p s)
          exact ⟨take_ne_nil_of_pos s j hj1 hlen, hall, ih _ _ hrest⟩
      | grpThreeDigits =>
          rw [matchAtoms.eq_def] at h
          cases s with
          | nil => simp at h
          | cons d1 s1 =>
              cases s1 with
              | nil => simp at h
              | cons d2 s2 =>
                  cases s2 with
                  | nil => simp at h
                  | cons d3 xs =>
                      dsimp only at h
                      split_ifs at h with hd
                      simp only [Option.map_eq_some'] at h
                      obtain ⟨caps', hrest, rfl⟩ := h
                      simp only [Bool.and_eq_true] at hd
                      refine ⟨rfl, ?_, ih _ _ hrest⟩
                      simp [List.all_cons, hd.1.1, hd.1.2, hd.2]
      | grpNumOrDash =>
          rw [matchAtoms.eq_def] at h
          dsimp only at h
          cases hp : matchPlusFrom ps s ((s.takeWhile isDigitRE).length) with
          | some caps2 =>
              rw [hp] at h
              simp only [Option.orElse, Option.some.injEq] at h
              subst h
              obtain ⟨j, caps', hj1, hj2, rfl, hrest⟩ :=
                matchPlusFrom_spec ps s _ caps2 hp
              have hall : (s.take j).all isDigitRE = true :=
                take_all_of_le_takeWhile isDigitRE s j hj2
              have hlen : j ≤ s.length :=
                le_trans hj2 (takeWhile_length_le isDigitRE s)
              exact ⟨Or.inl ⟨take_ne_nil_of_pos s j hj1 hlen, hall⟩, ih _ _ hrest⟩
          | none =>
              rw [hp] at h
              simp only [Option.orElse] at h
              rw [matchDashFallback.eq_def] at h
              split at h
              next xs heq =>
                simp only [Option.map_eq_some'] at h
                obtain ⟨caps', hrest, rfl⟩ := h
                exact ⟨Or.inr rfl, ih _ _ hrest⟩
              next => simp at h

/-- A successful `clfMatch` always captures exactly three decimal digits in
the status group. -/
theorem clfMatch_status_digits (line : String) (m : CLFCaptures)
    (h : clfMatch line = some m) :
    m.status.length = 3 ∧ m.status.all isDigitRE = true := by
  unfold clfMatch at h
  cases hm : matchAtoms clfAtoms line.toList with
  | none => rw [hm] at h; simp at h
  | some caps =>
      rw [hm] at h
      have hok := matchAtoms_capsOK clfAtoms line.toList caps hm
      rcases caps with - | ⟨g1, - | ⟨g2, - | ⟨g3, - | ⟨g4, - | ⟨g5, - |
        ⟨g6, - | ⟨g7, - | ⟨g8, - | ⟨g9, - | ⟨g10, rest⟩⟩⟩⟩⟩⟩⟩⟩⟩⟩ <;>
        simp only [Option.some.injEq, reduceCtorEq] at h
      subst h
      simp only [clfAtoms, CapsOK] at hok
      obtain ⟨-, -, -, -, -, -, -, -, -, -, -, -, -, -, h8len, h8all, -⟩ := hok
      exact ⟨h8len, h8all⟩

/-- Codepoint bounds of a `[0-9]` rune. -/
theorem isDigitRE_bounds {c : Char} (h : isDigitRE c = true) :
    48 ≤ c.toNat ∧ c.toNat ≤ 57 := by
  simp only [isDigitRE, Bool.and_eq_true, decide_eq_true_eq] at h
  obtain ⟨h1, h2⟩ := h
  constructor
  · simpa [Char.le_def] using h1
  · simpa [Char.le_def] using h2

/-- `strconv.Atoi` of three decimal digits succeeds with a value in
[0, 999]. -/
theorem goAtoi_three_digits (d1 d2 d3 : Char) (h1 : isDigitRE d1 = true)
    (h2 : isDigitRE d2 = true) (h3 : isDigitRE d3 = true) :
    ∃ v, goAtoi [d1, d2, d3] = some v ∧ 0 ≤ v ∧ v ≤ 999 := by
  obtain ⟨h1a, h1b⟩ := isDigitRE_bounds h1
  obtain ⟨h2a, h2b⟩ := isDigitRE_bounds h2
  obtain ⟨h3a, h3b⟩ := isDigitRE_bounds h3
  have h0 : ('0'.toNat : Int) = 48 := rfl
  have hval : 0 ≤ digitsVal [d1, d2, d3] ∧ digitsVal [d1, d2, d3] ≤ 999 := by
    simp only [digitsVal, List.foldl_cons, List.foldl_nil, h0]
    omega
  have hsign : atoiSign [d1, d2, d3] = (false, [d1, d2, d3]) := by
    rw [atoiSign.eq_def]
    split
    next rest heq =>
      have hd : d1 = '+' := (List.cons.inj heq).1
      rw [hd] at h1a
      exact absurd h1a (by decide)
    next rest heq =>
      have hd : d1 = '-' := (List.cons.inj heq).1
      rw [hd] at h1a
      exact absurd h1a (by decide)
    next => rfl
  obtain ⟨hv0, hv999⟩ := hval
  have hall : [d1, d2, d3].all isDigitRE = true := by
    simp [List.all_cons, h1, h2, h3]
  have hds : (decide ([d1, d2, d3] = []) || !([d1, d2, d3].all isDigitRE)) = false := by
    simp [hall]
  have hrange : (decide (digitsVal [d1, d2, d3] < -2 ^ 63) ||
      decide (2 ^ 63 - 1 < digitsVal [d1, d2, d3])) = false := by
    simp only [Bool.or_eq_false_iff, decide_eq_false_iff_not]
    constructor <;> omega
  refine ⟨digitsVal [d1, d2, d3], ?_, hv0, hv999⟩
  unfold goAtoi
  rw [hsign]
  simp [hds, hrange]
  exact ⟨⟨h1, h2, h3⟩, by omega, by omega⟩

/-- Concrete evaluation: the regex match of `line099`. -/
theorem clfMatch_line099 : clfMatch line099 = some caps099 := by
  simp [clfMatch, matchAtoms, matchPlusFrom, matchDashFallback, clfAtoms,
    isSpaceRE, isDigitRE, line099, caps099]

/-- Concrete evaluation: the timestamp of `line099`. -/
theorem goParseTimestamp_date099 : goParseTimestamp caps099.date = some dt099 := by
  decide

/-- Concrete evaluation: parsing `line099` succeeds with status 99 and
bytes 0. -/
theorem Parse_line099 : Parse line099 = Except.ok entry099 := by
  simp only [Parse, clfMatch_line099, goParseTimestamp_date099]
  rfl

/-- Concrete evaluation: the regex match of `lineBadDate`. -/
theorem clfMatch_lineBadDate : clfMatch lineBadDate = some capsBadDate := by
  simp [clfMatch, matchAtoms, matchPlusFrom, matchDashFallback, clfAtoms,
    isSpaceRE, isDigitRE, lineBadDate, capsBadDate]

/-- Concrete evaluation: parsing `lineBadDate` fails on the date. -/
theorem Parse_lineBadDate :
    Parse lineBadDate = Except.error "parse date from log" := by
  simp only [Parse, clfMatch_lineBadDate]
  rfl

/-- C5 counterexample: `line099` parses successfully with status 99 — a
successful parse whose status lies below 100, contradicting the claimed
range [100, 999].  (The parser comment itself documents the range as
[000, 999].) -/
theorem Parse_status_below_100 :
    Parse line099 = Except.ok entry099 ∧ entry099.StatusCode = 99 ∧
    ¬ 100 ≤ entry099.StatusCode :=
  ⟨Parse_line099, rfl, by decide⟩

/-- C5 (amended): for every input line on which the parser succeeds, the
status field of the resulting entry is an integer in [0, 999] (the regex
guarantees exactly three decimal digits, but admits values below 100). -/
theorem Parse_status_range (line : String) (e : LogEntry)
    (h : Parse line = Except.ok e) : 0 ≤ e.StatusCode ∧ e.StatusCode ≤ 999 := by
  unfold Parse at h
  cases hm : clfMatch line with
  | none => rw [hm] at h; simp at h
  | some m =>
      rw [hm] at h
      dsimp only at h
      cases hd : goParseTimestamp m.date with
      | none => rw [hd] at h; simp at h
      | some dt =>
          rw [hd] at h
          simp only [Except.ok.injEq] at h
          subst h
          obtain ⟨hlen, hdig⟩ := clfMatch_status_digits line m hm
          rcases hst : m.status with - | ⟨d1, - | ⟨d2, - | ⟨d3, - | ⟨d4, r⟩⟩⟩⟩ <;>
            rw [hst] at hlen <;> simp at hlen
          rw [hst] at hdig
          simp only [List.all_cons, List.all_nil, Bool.and_eq_true,
            Bool.and_true] at hdig
          obtain ⟨hd1, hd2, hd3⟩ := hdig
          obtain ⟨v, hv, hv0, hv999⟩ := goAtoi_three_digits d1 d2 d3 hd1 hd2 hd3
          dsimp only
          rw [hv]
          simpa using ⟨hv0, hv999⟩

/-- Witness for C5 (amended) at `line099`. -/
theorem Parse_status_range_witness :
    0 ≤ entry099.StatusCode ∧ entry099.StatusCode ≤ 999 :=
  Parse_status_range line099 entry099 Parse_line099

/-- C6 counterexample: `lineBadDate` matches the Common Log Format regex and
its bytes capture is the literal `-`, yet `Parse` returns an error (the date
field does not parse) — so a matching line with bytes `-` need not parse
successfully. -/
theorem Parse_dash_bytes_counterexample :
    clfMatch lineBadDate = some capsBadDate ∧ capsBadDate.bytes = ['-'] ∧
    Parse lineBadDate = Except.error "parse date from log" :=
  ⟨clfMatch_lineBadDate, rfl, Parse_lineBadDate⟩

/-- C6 (amended): `Parse` returns an error exactly when the line does not
match the Common Log Format regex (`clfMatch`) or its date field does not
parse with layout `02/Jan/2006:15:04:05 -0700`; and every matching line
whose date parses and whose bytes field is the literal `-` parses
successfully into an entry with bytes 0. -/
theorem Parse_error_iff (line : String) :
    ((∃ msg, Parse line = Except.error msg) ↔
      clfMatch line = none ∨
        ∃ m, clfMatch line = some m ∧ goParseTimestamp m.date = none) ∧
    (∀ m dt, clfMatch line = some m → goParseTimestamp m.date = some dt →
      m.bytes = ['-'] →
      ∃ e, Parse line = Except.ok e ∧ e.Bytes = 0) := by
  constructor
  · cases hm : clfMatch line with
    | none => simp [Parse, hm]
    | some m =>
        cases hd : goParseTimestamp m.date with
        | none => simp [Parse, hm, hd]
        | some dt => simp [Parse, hm, hd]
  · intro m dt hm hd hb
    refine ⟨{ RemoteHost := String.mk m.remoteHost, UserID := String.mk m.userID,
              Username := String.mk m.userName, Date := dt,
              ReqMethod := String.mk m.method, ReqPath := String.mk m.path,
              ReqProtocol := String.mk m.protocol,
              StatusCode := (goAtoi m.status).getD 0,
              Bytes := (goAtoi m.bytes).getD 0 }, ?_, ?_⟩
    · simp [Parse, hm, hd]
    · rw [hb]
      rfl

/-- Witness for C6 at `line099` (matching line, valid date, bytes `-`). -/
theorem Parse_error_iff_witness :
    ∃ e, Parse line099 = Except.ok e ∧ e.Bytes = 0 :=
  (Parse_error_iff line099).2 caps099 dt099 clfMatch_line099
    goParseTimestamp_date099 rfl

end Logmon
